import Mathlib

/-!
Verification of the DeltaShell command interpreter: a shallow embedding of
the tokenizer (parser.py), the redirect resolver and dispatcher
(commands/base.py), the external-execution policy (commands/external_cmd.py)
and the session history (components/history.py), with theorems checking the
specification's claims against it.

Conventions of the embedding:
  - Python strings are Lean `String`/`List Char`; the scanning loops of the
    source (index `i` advanced by 1 or 2) become structural recursion over
    the character or token list, consuming one or two elements per step.
  - Python `str.strip` is modelled by `pyStrip` (whitespace as Python
    defines it for ASCII), `int(...)` by `parsePyInt`, and the negative
    slice `l[-k:]` by `takeLastPy` (notably `l[-0:]` is the whole list).
  - The file system touched by output redirection is a map from path to
    optional contents; `open(path, mode)` truncates or reads the prior
    contents, exactly as the `with open(...)` block of `execute` does.
  - External processes, the builtin handler table's file and directory
    handlers, and the help renderer are impure collaborators: they enter as
    the `ExecEnv` record of abstract outcomes, and the claims quantify over
    them. No claim exercises the body of a table handler.
-/

/-- Python whitespace for `str.strip`: space, tab, newline, carriage return,
vertical tab, form feed. -/
def isPySpace (c : Char) : Bool :=
  c = ' ' || c = '\t' || c = '\n' || c = '\r' || c = '\x0b' || c = '\x0c'

/-- `str.strip` on a character list: drop whitespace from the front, then
from the back. -/
def pyStripList (l : List Char) : List Char :=
  ((l.dropWhile isPySpace).reverse.dropWhile isPySpace).reverse

/-- Python `str.strip()` with no argument. -/
def pyStrip (s : String) : String :=
  String.mk (pyStripList s.toList)

/-- Python `l[-k:]`: the last `k` elements for `k ≥ 1`; for `k = 0` the
slice `l[0:]` is the whole list. -/
def takeLastPy {α : Type} (l : List α) (k : Nat) : List α :=
  if k = 0 then l else l.drop (l.length - k)

/-- Decimal digits to a number (helper for `parsePyInt`). -/
def digitsVal : List Char → Nat
  | [] => 0
  | ds => ds.foldl (fun a c => a * 10 + (c.toNat - 48)) 0

/-- The tail of a CPython `digitpart` after its first digit:
`(["_"] digit)*` — each underscore must stand between two digits, never
doubled, never trailing (PEP 515). -/
def pyDigitRun : List Char → Bool
  | [] => true
  | '_' :: c :: rest => c.isDigit && pyDigitRun rest
  | c :: rest => c.isDigit && pyDigitRun rest

/-- A CPython `digitpart`: nonempty, starting with a digit, with
digit-group underscores allowed between digits; its value ignores the
underscores (`1_0` is 10, while `_1`, `1_` and `1__0` are rejected). -/
def pyIntDigits (l : List Char) : Option Nat :=
  match l with
  | [] => none
  | c :: rest =>
    if c.isDigit && pyDigitRun rest then
      some (digitsVal ((c :: rest).filter (fun d => d != '_')))
    else none

/-- Python `int(s)` on ASCII input: surrounding whitespace allowed, an
optional sign, then a digit part with PEP 515 digit-group underscores;
anything else raises `ValueError`, modelled as `none`. On ASCII strings
this is exact: `parsePyInt s = none` holds precisely when `int(s)` raises.
CPython additionally accepts non-ASCII decimal digits and non-ASCII
whitespace, which this model rejects, so the theorems that read
`parsePyInt s = none` as `int(...)` raising restrict themselves to ASCII
arguments (`isAsciiString`); acceptance (`parsePyInt s = some n`) needs no
such restriction — everything the model accepts, CPython accepts with the
same value. -/
def parsePyInt (s : String) : Option Int :=
  match pyStripList s.toList with
  | [] => none
  | c :: ds =>
    if c = '+' then (pyIntDigits ds).map (fun n => (n : Int))
    else if c = '-' then (pyIntDigits ds).map (fun n => -(n : Int))
    else (pyIntDigits (c :: ds)).map (fun n => (n : Int))

/-- All characters of a string are ASCII (code points below 128): the
range on which `pyStrip` and `parsePyInt` agree exactly with CPython. -/
def isAsciiString (s : String) : Bool :=
  s.toList.all (fun c => c.toNat < 128)

/-- Python `str.lower` as the dispatcher uses it (command names are
ASCII): the character-wise lowering `Char.toLower`, written by structural
recursion over the characters so that proofs can evaluate it (core
`String.toLower` recurses on byte positions with a well-founded measure,
which the kernel does not reduce). -/
def pyLower (s : String) : String :=
  String.mk (s.toList.map Char.toLower)

namespace ShellParser

/-- parser.py line 3: the tokenizer's operator vocabulary. -/
def REDIRECT_OPERATORS : List String :=
  [">>", ">&", "<&", "<>", "<<", ">>>", "<", ">", "2>"]

/-- Close the accumulated word as a token if it is nonempty (the
`if current_token: tokens.append(current_token)` step), in front of the
tokens still to come. -/
def flushTok (cur : List Char) (rest : List String) : List String :=
  if cur = [] then rest else String.mk cur :: rest

/-- The loop of `ShellParser.tokenize`, one step per character. State:
remaining characters, accumulated word, `in_single_quote`,
`in_double_quote`, `escape_next`. The branch for one remaining character
repeats the loop body without the two-character lookahead (`i + 1 < len`
fails there). -/
def tokenizeGo : List Char → List Char → Bool → Bool → Bool → List String
  | [], cur, _, _, _ => flushTok cur []
  | [c], cur, sq, dq, esc =>
    if esc = true then tokenizeGo [] (cur ++ [c]) sq dq false
    else if c = '\\' then tokenizeGo [] cur sq dq true
    else if sq = false ∧ dq = false ∧
        REDIRECT_OPERATORS.contains (String.mk [c]) = true then
      flushTok cur (String.mk [c] :: tokenizeGo [] [] sq dq false)
    else if c = '\'' ∧ dq = false then tokenizeGo [] cur (!sq) dq false
    else if c = '"' ∧ sq = false then tokenizeGo [] cur sq (!dq) false
    else if c = ' ' ∧ sq = false ∧ dq = false then
      flushTok cur (tokenizeGo [] [] sq dq false)
    else tokenizeGo [] (cur ++ [c]) sq dq false
  | c :: c2 :: rest2, cur, sq, dq, esc =>
    if esc = true then tokenizeGo (c2 :: rest2) (cur ++ [c]) sq dq false
    else if c = '\\' then tokenizeGo (c2 :: rest2) cur sq dq true
    else if sq = false ∧ dq = false ∧
        REDIRECT_OPERATORS.contains (String.mk [c, c2]) = true then
      flushTok cur (String.mk [c, c2] :: tokenizeGo rest2 [] sq dq false)
    else if sq = false ∧ dq = false ∧
        REDIRECT_OPERATORS.contains (String.mk [c]) = true then
      flushTok cur (String.mk [c] :: tokenizeGo (c2 :: rest2) [] sq dq false)
    else if c = '\'' ∧ dq = false then tokenizeGo (c2 :: rest2) cur (!sq) dq false
    else if c = '"' ∧ sq = false then tokenizeGo (c2 :: rest2) cur sq (!dq) false
    else if c = ' ' ∧ sq = false ∧ dq = false then
      flushTok cur (tokenizeGo (c2 :: rest2) [] sq dq false)
    else tokenizeGo (c2 :: rest2) (cur ++ [c]) sq dq false

/-- `ShellParser.tokenize` of parser.py. -/
def tokenize (command_line : String) : List String :=
  tokenizeGo command_line.toList [] false false false

end ShellParser

/-- components/history.py: `CommandHistory`, the per-session history store
(`_entries`, capped at `max_entries`, default 1000). -/
structure CommandHistory where
  max_entries : Nat
  entries : List String
deriving DecidableEq

/-- `CommandHistory.format`: render the last `limit` entries (all, when no
limit), each as `{index}. {command}` with the index continuing from the true
position in the retained history; empty history renders a fixed message.
`execute` only ever passes a limit of at least 1 (it clamps with
`max(1, ...)`). -/
def CommandHistory.format (h : CommandHistory) (limit : Option Nat) : String :=
  if h.entries = [] then "History is empty"
  else
    let shown := match limit with
      | none => h.entries
      | some k => takeLastPy h.entries k
    let start_index := h.entries.length - shown.length + 1
    String.intercalate "\n"
      ((List.enumFrom start_index shown).map (fun p => toString p.1 ++ ". " ++ p.2))

/-- The numbered rendering of the whole history, one line per entry (a
specification-side helper used to state how truncated renderings are
numbered). -/
def CommandHistory.lines (h : CommandHistory) : List String :=
  (List.enumFrom 1 h.entries).map (fun p => toString p.1 ++ ". " ++ p.2)

/-- `CommandHistory.clear`. -/
def CommandHistory.clearAll (h : CommandHistory) : CommandHistory :=
  { h with entries := [] }

/-- external_cmd.py lines 22-80: the fixed set of terminal-coupled commands. -/
def interactiveCommands : List String :=
  ["nano", "vim", "vi", "emacs", "gedit", "kate", "code",
   "htop", "top", "less", "more", "man", "watch", "btop",
   "ssh", "telnet", "ftp", "sftp",
   "screen", "tmux",
   "ranger", "mc", "ncdu", "nnn",
   "dialog", "whiptail", "fzf",
   "gdb", "python", "python3", "ipython", "node", "nodejs",
   "mysql", "psql", "sqlite3", "mongo",
   "irb", "pry",
   "ping", "tail", "journalctl", "dmesg", "tcpdump",
   "bash", "zsh"]

/-- `isInteractiveCommand` of external_cmd.py. -/
def isInteractiveCommand (command : String) : Bool :=
  interactiveCommands.contains (pyLower command)

/-- external_cmd.py lines 101-108: the fixed set of streaming commands. -/
def streamingCommands : List String :=
  ["ping", "tail", "watch", "journalctl", "dmesg", "tcpdump"]

/-- `isStreamingCommand` of external_cmd.py. -/
def isStreamingCommand (command : String) (args : List String) : Bool :=
  if streamingCommands.contains (pyLower command) then true
  else if pyLower command = "tail" ∧ args.contains "-f" then true
  else if pyLower command = "journalctl" ∧ args.contains "-f" then true
  else false

/-- `isBuiltinCommand` of external_cmd.py lines 233-260. -/
def isBuiltinCommand (command : String) : Bool :=
  (["ls", "dir", "cd", "pwd", "mkdir", "rmdir",
    "cat", "touch", "rm", "cp", "mv",
    "grep", "find", "head", "tail", "wc",
    "clear", "cls", "echo", "help", "history", "exit_de"] : List String).contains
    (pyLower command)

/-- Outcome of `subprocess.run` with captured output and a timeout:
normal completion with a return code, stdout and stderr; expiry of the
timeout; or any other raised fault. -/
inductive RunOutcome where
  | completed (returncode : Int) (stdout : String) (stderr : String)
  | timedOut
  | raised (msg : String)
deriving DecidableEq

/-- Outcome of `subprocess.run` connected directly to the terminal:
completion with a return code, a KeyboardInterrupt, or another fault. -/
inductive DirectOutcome where
  | completed (returncode : Int)
  | interrupted
  | raised (msg : String)
deriving DecidableEq

/-- The impure collaborators of the dispatcher and the external-execution
policy, abstracted: `shutil.which`, the two spawn modes of
`subprocess.run` (the captured one takes the timeout `execute` passes), the
handlers of the builtin command table (file, directory and search
operations — no claim exercises their bodies), and the help renderer. -/
structure ExecEnv where
  which : String → Option String
  runDirect : List String → Option String → DirectOutcome
  runCaptured : List String → Option String → Nat → RunOutcome
  builtinHandler : String → List String → List String
  helpFor : String → String
  helpTable : String

/-- `executeExternalCommand` of external_cmd.py lines 125-216: check the
PATH, run interactive and streaming commands directly, run standard
commands with output captured under a 30 second timeout, and fold every
outcome into a `[status, message]` pair. -/
def executeExternalCommand (env : ExecEnv) (command : String) (args : List String)
    (current_directory : Option String) : List String :=
  match env.which command with
  | none => ["error", s!"Команда '{command}' не найдена в системном PATH"]
  | some _ =>
    if isInteractiveCommand command || isStreamingCommand command args then
      match env.runDirect (command :: args) current_directory with
      | .completed rc =>
        if rc = 0 then ["success", ""]
        else ["error", s!"Команда завершилась ошибкой: {rc}"]
      | .interrupted => ["error", "Пользователь прервал выполнение комнды или программы"]
      | .raised e => ["error", s!"Непредвиденная ошибка при выполнении: {e}"]
    else
      match env.runCaptured (command :: args) current_directory 30 with
      | .completed rc out errOut =>
        let output := out ++ (if errOut ≠ "" then errOut else "")
        if rc ≠ 0 then
          ["error", "Команда завершилась с ошибкой:" ++ toString rc ++ "\n" ++ output]
        else ["success", if output ≠ "" then pyStrip output else ""]
      | .timedOut =>
        ["error", s!"Команда '{command}' превысила лимит времени  выполнении в 30 секунд"]
      | .raised e => ["error", s!"Ошибка выполнения: {e}"]

namespace Command_Base

/-- commands/base.py line 19: the resolver's operator vocabulary. -/
def REDIRECT_OPERATORS : List String := [">", ">>", "<", "2>", "&>"]

/-- The keys of `Command_Base._command_map` (the handlers themselves are
abstracted into `ExecEnv.builtinHandler`). -/
def command_map_keys : List String :=
  ["ls", "dir", "cd", "pwd", "mkdir", "rmdir",
   "cat", "touch", "rm", "cp", "mv",
   "grep", "find", "head", "tail", "wc"]

/-- `Command_Base._clear_aliases`. -/
def clear_aliases : List String := ["clear", "cls"]

/-- The scanning loop of `Command_Base._parse_redirects`: `i` walks the
token list, an output operator consumes the next token as its filename
(advancing by two), the unimplemented operators and a trailing output
operator return an error pair at once, and every other token is appended to
`args`. -/
def parse_redirects_go :
    List String → List String → Option String → Option String → Bool →
      List String × Option String × Option String × Bool
  | [], args, out, inp, app => (args, out, inp, app)
  | t :: rest, args, out, inp, app =>
    if REDIRECT_OPERATORS.contains t = true then
      if t = ">" then
        match rest with
        | f :: rest2 => parse_redirects_go rest2 args (some f) inp false
        | [] => (["error", s!"Оператор '{t}' требует имя файла"], none, none, false)
      else if t = ">>" then
        match rest with
        | f :: rest2 => parse_redirects_go rest2 args (some f) inp true
        | [] => (["error", s!"Оператор '{t}' требует имя файла"], none, none, false)
      else if t = "<" then
        (["error", s!"Перенаправление ввода '{t}' пока не реализовано"], none, none, false)
      else if t = "2>" then
        (["error", s!"Перенаправление stderr '{t}' пока не реализовано"], none, none, false)
      else if t = "&>" then
        (["error", s!"Перенаправление stdout и stderr '{t}' пока не реализовано"],
          none, none, false)
      else
        (["error", s!"Неизвестный оператор перенаправления '{t}'"], none, none, false)
    else parse_redirects_go rest (args ++ [t]) out inp app

/-- `Command_Base._parse_redirects` of commands/base.py lines 49-146:
returns `(args_before_redirect, output_file, input_file, append_mode)`,
with an error encoded as `(["error", msg], none, none, false)`. -/
def parse_redirects (tokens : List String) :
    List String × Option String × Option String × Bool :=
  parse_redirects_go tokens [] none none false

/-- Whether the scan of `_parse_redirects` runs off the end of the token
list without hitting an error branch (a specification-side helper for
stating how the scan treats appended tokens). -/
def parse_ok_go : List String → Bool
  | [] => true
  | t :: rest =>
    if REDIRECT_OPERATORS.contains t = true then
      if t = ">" ∨ t = ">>" then
        match rest with
        | _ :: rest2 => parse_ok_go rest2
        | [] => false
      else false
    else parse_ok_go rest

/-- The dispatch section of `Command_Base.execute` (lines 181-215):
`Except.error` models the `return` statements that leave `execute` before
the redirection block (history unavailable, non-numeric limit),
`Except.ok` the assignments to `result` that fall through to it — the
final builtin-name-not-found branch included, since base.py assigns
`result` there rather than returning. -/
def dispatchCommand (env : ExecEnv) (command : String) (args : List String)
    (history : Option CommandHistory) (current_directory : Option String) :
    Except (List String) (List String) :=
  if command_map_keys.contains command = true then
    .ok (env.builtinHandler command args)
  else if command = "history" then
    match history with
    | none => .error ["error", "История недоступна"]
    | some h =>
      match args with
      | [] => .ok ["success", h.format none]
      | a :: _ =>
        match parsePyInt a with
        | none => .error ["error", "Лимит истории должен быть числом"]
        | some n => .ok ["success", h.format (some (max 1 n).toNat)]
  else if clear_aliases.contains command = true then
    .ok ["success", "Shell очищен"]
  else if command = "echo" then
    .ok ["success", String.intercalate " " args]
  else if command = "help" then
    match args with
    | [] => .ok ["success", env.helpTable]
    | a :: _ =>
      .ok ["success", env.helpFor (if a.startsWith "--" then a.drop 2 else a)]
  else if isBuiltinCommand command = false then
    .ok (executeExternalCommand env command args current_directory)
  else
    .ok ["error",
      s!"Команда '{command}' не найдена. Введите 'help' для получения доступных команд."]

/-- The file system as output redirection sees it: path to contents. -/
def FS : Type := String → Option String

/-- `open(path, mode)` followed by `f.write(payload)`: mode `w` truncates at
open, mode `a` starts from the prior contents (an absent file reads as
empty). -/
def fsOpenWrite (fs : FS) (path : String) (append_mode : Bool) (payload : String) : FS :=
  let base := if append_mode then ((fs path).getD "") else ""
  fun p => if p = path then some (base ++ payload) else fs p

/-- `open(path, mode)` with nothing written before the `with` block closes
(the fall-through case of the redirection block): mode `w` still truncates. -/
def fsOpenOnly (fs : FS) (path : String) (append_mode : Bool) : FS :=
  let base := if append_mode then ((fs path).getD "") else ""
  fun p => if p = path then some base else fs p

/-- `Command_Base.execute` of commands/base.py lines 148-251, returning the
`[status, message]` pair and the file system after any redirection write.
The working-directory context enters as the optional `_resolve_path`
capability. Note the error check after `_parse_redirects` (source lines
163-173) tests `len(args_before_redirect) == 0`, which no error pair (a
two-element list) satisfies, so its inner return is unreachable; the Python
there would index `[0]` on an empty list, modelled with `headD`. -/
def execute (env : ExecEnv) (tokens : List String)
    (dir_utility : Option (String → String)) (history : Option CommandHistory)
    (current_directory : Option String) (fs : FS) : List String × FS :=
  if tokens = [] then (["error", "Команда не указана"], fs)
  else
    let pr := parse_redirects tokens
    let args_before_redirect := pr.1
    let output_file := pr.2.1
    let append_mode := pr.2.2.2
    if args_before_redirect.length = 0 ∧ output_file = none ∧
        args_before_redirect.headD "" = "error" then
      (args_before_redirect, fs)
    else if args_before_redirect = [] then
      (["error", "Команда не указана до перенаправления"], fs)
    else
      let command := pyLower (args_before_redirect.headD "")
      let args := args_before_redirect.tail
      match dispatchCommand env command args history current_directory with
      | .error r => (r, fs)
      | .ok result =>
        if output_file.getD "" = "" then (result, fs)
        else
          let out := output_file.getD ""
          let resolved := match dir_utility with
            | some resolve => resolve out
            | none => out
          let status := result.headD ""
          let payload := result.getD 1 ""
          if status = "success" then
            (["success", s!"Вывод команды '{command}' перенаправлен в {resolved}"],
              fsOpenWrite fs resolved append_mode payload)
          else if status = "error" then
            (["error", s!"Ошибка команды '{command}', подробности в {resolved}"],
              fsOpenWrite fs resolved append_mode payload)
          else (result, fsOpenOnly fs resolved append_mode)

end Command_Base

def trivialEnv : ExecEnv :=
  { which := fun _ => none
    runDirect := fun _ _ => .completed 0
    runCaptured := fun _ _ _ => .timedOut
    builtinHandler := fun _ _ => []
    helpFor := fun _ => ""
    helpTable := "" }

def fsEmpty : Command_Base.FS := fun _ => none

/-- A session history holding five accumulated entries. -/
def historyFive : CommandHistory := CommandHistory.mk 1000 ["a", "b", "c", "d", "e"]

namespace Command_Base

/-- The cons unfolding of `parse_ok_go` for an arbitrary tail (the compiled
equations are split by the shape of the tail). -/
theorem parse_ok_go_cons (t : String) (rest : List String) :
    parse_ok_go (t :: rest) =
      (if REDIRECT_OPERATORS.contains t = true then
        if t = ">" ∨ t = ">>" then
          match rest with
          | _ :: rest2 => parse_ok_go rest2
          | [] => false
        else false
      else parse_ok_go rest) := by
  cases rest <;> rfl

/-- The cons unfolding of `parse_redirects_go` for an arbitrary tail. -/
theorem parse_redirects_go_cons (t : String) (rest args : List String)
    (out inp : Option String) (app : Bool) :
    parse_redirects_go (t :: rest) args out inp app =
      (if REDIRECT_OPERATORS.contains t = true then
        if t = ">" then
          match rest with
          | f :: rest2 => parse_redirects_go rest2 args (some f) inp false
          | [] => (["error", s!"Оператор '{t}' требует имя файла"], none, none, false)
        else if t = ">>" then
          match rest with
          | f :: rest2 => parse_redirects_go rest2 args (some f) inp true
          | [] => (["error", s!"Оператор '{t}' требует имя файла"], none, none, false)
        else if t = "<" then
          (["error", s!"Перенаправление ввода '{t}' пока не реализовано"], none, none, false)
        else if t = "2>" then
          (["error", s!"Перенаправление stderr '{t}' пока не реализовано"], none, none, false)
        else if t = "&>" then
          (["error", s!"Перенаправление stdout и stderr '{t}' пока не реализовано"],
            none, none, false)
        else
          (["error", s!"Неизвестный оператор перенаправления '{t}'"], none, none, false)
      else parse_redirects_go rest (args ++ [t]) out inp app) := by
  cases rest <;> rfl

/-- A scan that completes on `ts` still completes appended tokens the same
way: `parse_ok_go` over `ts ++ extra` is `parse_ok_go` over `extra`. -/
theorem parse_ok_go_append (ts extra : List String) (h : parse_ok_go ts = true) :
    parse_ok_go (ts ++ extra) = parse_ok_go extra := by
  induction ts using parse_ok_go.induct with
  | case1 => rfl
  | case2 t hc hop f rest2 ih =>
    have hm : t ∈ REDIRECT_OPERATORS := by simpa using hc
    simp [parse_ok_go_cons, hm, hop] at h ⊢
    exact ih h
  | case3 t hc hop =>
    have hm : t ∈ REDIRECT_OPERATORS := by simpa using hc
    simp [parse_ok_go_cons, hm, hop] at h
  | case4 t rest hc hnop =>
    have hm : t ∈ REDIRECT_OPERATORS := by simpa using hc
    simp [parse_ok_go_cons, hm, hnop] at h
  | case5 t rest hnc ih =>
    have hm : t ∉ REDIRECT_OPERATORS := by simpa using hnc
    simp [parse_ok_go_cons, hm] at h ⊢
    exact ih h

/-- When the scan completes on `ts`, scanning `ts ++ extra` first processes
`ts` (accumulating its arguments and redirect state) and then continues
through `extra` from that state: the position-by-position decisions over the
`ts` prefix are unchanged by what follows. -/
theorem parse_redirects_go_append (ts : List String) (h : parse_ok_go ts = true)
    (extra args : List String) (out inp : Option String) (app : Bool) :
    parse_redirects_go (ts ++ extra) args out inp app =
      (let r := parse_redirects_go ts args out inp app
       parse_redirects_go extra r.1 r.2.1 r.2.2.1 r.2.2.2) := by
  induction ts using parse_ok_go.induct generalizing args out inp app with
  | case1 => rfl
  | case2 t hc hop f rest2 ih =>
    have hm : t ∈ REDIRECT_OPERATORS := by simpa using hc
    simp [parse_ok_go_cons, hm, hop] at h
    rcases hop with h1 | h1 <;> subst h1 <;>
      simp [parse_redirects_go_cons, hm] <;> exact ih h _ _ _ _
  | case3 t hc hop =>
    have hm : t ∈ REDIRECT_OPERATORS := by simpa using hc
    simp [parse_ok_go_cons, hm, hop] at h
  | case4 t rest hc hnop =>
    have hm : t ∈ REDIRECT_OPERATORS := by simpa using hc
    simp [parse_ok_go_cons, hm, hnop] at h
  | case5 t rest hnc ih =>
    have hm : t ∉ REDIRECT_OPERATORS := by simpa using hnc
    simp [parse_ok_go_cons, hm] at h
    simp [parse_redirects_go_cons, hm]
    exact ih h _ _ _ _

/-- Tokens that are not resolver operators pass through the scan into `args`
unchanged, in order, with no redirect state set. -/
theorem parse_redirects_go_no_ops (ts : List String) :
    ∀ (args : List String) (out inp : Option String) (app : Bool),
      (∀ t ∈ ts, t ∉ REDIRECT_OPERATORS) →
      parse_redirects_go ts args out inp app = (args ++ ts, out, inp, app) := by
  induction ts with
  | nil => intro args out inp app _; simp [parse_redirects_go]
  | cons t rest ih =>
    intro args out inp app hno
    have hm : t ∉ REDIRECT_OPERATORS := hno t (by simp)
    have hcf : REDIRECT_OPERATORS.contains t = false := by simpa using hm
    rw [parse_redirects_go_cons, hcf]
    simp only [Bool.false_eq_true, if_false]
    rw [ih (args ++ [t]) out inp app (fun u hu => hno u (by simp [hu]))]
    simp
end Command_Base

namespace Command_Base

/-- A trailing `>` or `>>` with no token after it makes resolution fail with
the `требует имя файла` (requires a filename) error pair, whatever arguments
and redirects came before. -/
theorem parse_redirects_trailing_op (ts : List String) (op : String)
    (hop : op = ">" ∨ op = ">>") (h : parse_ok_go ts = true) :
    parse_redirects (ts ++ [op]) =
      (["error", s!"Оператор '{op}' требует имя файла"], none, none, false) := by
  unfold parse_redirects
  rw [parse_redirects_go_append ts h [op]]
  rcases hop with h1 | h1 <;> subst h1 <;>
    simp [parse_redirects_go_cons, parse_redirects_go, REDIRECT_OPERATORS]

/-- An output operator followed by a token consumes that token as the
filename: it records it as the output target with the append flag matching
the operator, and the arguments are exactly those of the prefix. -/
theorem parse_redirects_filename (ts : List String) (op f : String)
    (hop : op = ">" ∨ op = ">>") (h : parse_ok_go ts = true) :
    parse_redirects (ts ++ [op, f]) =
      ((parse_redirects ts).1, some f, (parse_redirects ts).2.2.1,
        decide (op = ">>")) := by
  unfold parse_redirects
  rw [parse_redirects_go_append ts h [op, f]]
  rcases hop with h1 | h1 <;> subst h1 <;>
    simp [parse_redirects_go_cons, parse_redirects_go, REDIRECT_OPERATORS]

/-- Two output redirects in one line: the later one overwrites the earlier
target and append flag, no error is raised, and neither operator nor
filename reaches the arguments. -/
theorem parse_redirects_last_wins (ts : List String) (op1 f1 op2 f2 : String)
    (hop1 : op1 = ">" ∨ op1 = ">>") (hop2 : op2 = ">" ∨ op2 = ">>")
    (h : parse_ok_go ts = true) :
    parse_redirects (ts ++ [op1, f1, op2, f2]) =
      ((parse_redirects ts).1, some f2, (parse_redirects ts).2.2.1,
        decide (op2 = ">>")) := by
  unfold parse_redirects
  rw [parse_redirects_go_append ts h [op1, f1, op2, f2]]
  rcases hop1 with h1 | h1 <;> rcases hop2 with h2 | h2 <;> subst h1 <;> subst h2 <;>
    simp [parse_redirects_go_cons, parse_redirects_go, REDIRECT_OPERATORS]

/-- A token that `int(...)` accepts is not a resolver operator. -/
theorem parsePyInt_not_op (s : String) (n : Int) (hs : parsePyInt s = some n) :
    s ∉ REDIRECT_OPERATORS := by
  intro hmem
  have hd : s = ">" ∨ s = ">>" ∨ s = "<" ∨ s = "2>" ∨ s = "&>" := by
    simpa [REDIRECT_OPERATORS] using hmem
  have hnone : parsePyInt s = none := by
    rcases hd with h | h | h | h | h <;> subst h <;> rfl
  rw [hnone] at hs
  exact Option.noConfusion hs

end Command_Base

namespace ShellParser

/-- No tokenizer operator starts with a double quote. -/
theorem contains_dquote_pair (c2 : Char) :
    REDIRECT_OPERATORS.contains (String.mk ['"', c2]) = false := rfl

/-- No tokenizer operator starts with a single quote. -/
theorem contains_squote_pair (c2 : Char) :
    REDIRECT_OPERATORS.contains (String.mk ['\'', c2]) = false := rfl

/-- Membership form of `contains_dquote_pair`. -/
theorem dquote_pair_not_mem (c2 : Char) :
    String.mk ['"', c2] ∉ REDIRECT_OPERATORS := by
  have h := contains_dquote_pair c2
  simp at h
  exact h

/-- Membership form of `contains_squote_pair`. -/
theorem squote_pair_not_mem (c2 : Char) :
    String.mk ['\'', c2] ∉ REDIRECT_OPERATORS := by
  have h := contains_squote_pair c2
  simp at h
  exact h

/-- Inside an open double quote, characters other than a backslash and a
double quote are accumulated verbatim (operators, single quotes and spaces
included), and at end of input the accumulated word is emitted as the last
token. -/
theorem tokenizeGo_in_dquote (l : List Char) :
    ∀ cur : List Char, (∀ c ∈ l, c ≠ '\\' ∧ c ≠ '"') →
      tokenizeGo l cur false true false =
        (if cur ++ l = [] then [] else [String.mk (cur ++ l)]) := by
  induction l with
  | nil => intro cur _; simp [tokenizeGo, flushTok]
  | cons c t ih =>
    intro cur hok
    have hc := hok c (by simp)
    cases t with
    | nil => simp [tokenizeGo, hc.1, hc.2, flushTok]
    | cons c2 t2 =>
      rw [show tokenizeGo (c :: c2 :: t2) cur false true false =
          tokenizeGo (c2 :: t2) (cur ++ [c]) false true false by
        simp [tokenizeGo, hc.1, hc.2]]
      rw [ih (cur ++ [c]) (fun u hu => hok u (by simp [hu]))]
      simp

/-- Inside an open single quote, characters other than a backslash and a
single quote are accumulated verbatim, and at end of input the accumulated
word is emitted as the last token. -/
theorem tokenizeGo_in_squote (l : List Char) :
    ∀ cur : List Char, (∀ c ∈ l, c ≠ '\\' ∧ c ≠ '\'') →
      tokenizeGo l cur true false false =
        (if cur ++ l = [] then [] else [String.mk (cur ++ l)]) := by
  induction l with
  | nil => intro cur _; simp [tokenizeGo, flushTok]
  | cons c t ih =>
    intro cur hok
    have hc := hok c (by simp)
    cases t with
    | nil => simp [tokenizeGo, hc.1, hc.2, flushTok]
    | cons c2 t2 =>
      rw [show tokenizeGo (c :: c2 :: t2) cur true false false =
          tokenizeGo (c2 :: t2) (cur ++ [c]) true false false by
        simp [tokenizeGo, hc.1, hc.2]]
      rw [ih (cur ++ [c]) (fun u hu => hok u (by simp [hu]))]
      simp

/-- A line that is an unterminated double quote followed by ordinary
characters tokenizes to that run of characters as one token: the quote is
consumed, nothing is lost, no error arises. -/
theorem tokenize_unterminated_dquote (l : List Char)
    (hok : ∀ c ∈ l, c ≠ '\\' ∧ c ≠ '"') (hne : l ≠ []) :
    tokenize (String.mk ('"' :: l)) = [String.mk l] := by
  show tokenizeGo ('"' :: l) [] false false false = [String.mk l]
  cases l with
  | nil => exact absurd rfl hne
  | cons c t =>
    rw [show tokenizeGo ('"' :: c :: t) [] false false false =
        tokenizeGo (c :: t) [] false true false by
      simp [tokenizeGo, dquote_pair_not_mem c,
        show ("\"" : String) ∉ REDIRECT_OPERATORS by decide]]
    rw [tokenizeGo_in_dquote (c :: t) [] hok]
    simp

/-- A line that is an unterminated single quote followed by ordinary
characters tokenizes to that run of characters as one token. -/
theorem tokenize_unterminated_squote (l : List Char)
    (hok : ∀ c ∈ l, c ≠ '\\' ∧ c ≠ '\'') (hne : l ≠ []) :
    tokenize (String.mk ('\'' :: l)) = [String.mk l] := by
  show tokenizeGo ('\'' :: l) [] false false false = [String.mk l]
  cases l with
  | nil => exact absurd rfl hne
  | cons c t =>
    rw [show tokenizeGo ('\'' :: c :: t) [] false false false =
        tokenizeGo (c :: t) [] true false false by
      simp [tokenizeGo, squote_pair_not_mem c,
        show ("'" : String) ∉ REDIRECT_OPERATORS by decide]]
    rw [tokenizeGo_in_squote (c :: t) [] hok]
    simp

end ShellParser

/-- Dropping from an enumeration shifts the starting index. -/
theorem enumFrom_drop {α : Type} (l : List α) :
    ∀ (n d : Nat), (List.enumFrom n l).drop d = List.enumFrom (n + d) (l.drop d) := by
  induction l with
  | nil => intro n d; simp
  | cons a t ih =>
    intro n d
    cases d with
    | zero => simp
    | succ d =>
      simp only [List.enumFrom, List.drop_succ_cons]
      rw [ih (n + 1) d]
      congr 1
      omega

/-- Rendering the history with a positive limit `k` gives exactly the last
`min k length` lines of the full numbered rendering: the numbering continues
from each entry's true position instead of restarting at 1. -/
theorem format_drop (h : CommandHistory) (k : Nat) (hk : 1 ≤ k)
    (hne : h.entries ≠ []) :
    h.format (some k) =
      String.intercalate "\n" (h.lines.drop (h.entries.length - k)) := by
  unfold CommandHistory.format CommandHistory.lines
  simp only [hne, if_false]
  have hz : k ≠ 0 := by omega
  simp only [takeLastPy, hz, if_false]
  rw [← List.map_drop, enumFrom_drop]
  have harg : h.entries.length - (List.drop (h.entries.length - k) h.entries).length + 1
      = 1 + (h.entries.length - k) := by
    simp only [List.length_drop]
    omega
  rw [harg]

namespace Command_Base

/-- A token list without resolver operators resolves to itself: all tokens
become arguments, no redirect is recorded, no error arises. -/
theorem parse_redirects_no_ops (ts : List String)
    (h : ∀ t ∈ ts, t ∉ REDIRECT_OPERATORS) :
    parse_redirects ts = (ts, none, none, false) := by
  unfold parse_redirects
  rw [parse_redirects_go_no_ops ts [] none none false h]
  simp

/-- `history` with an argument that is not a resolver operator and that
`int(...)` rejects returns the non-numeric-limit error before any
redirection handling. -/
theorem execute_history_non_numeric (env : ExecEnv) (s : String)
    (h : CommandHistory) (fs : FS) (hso : s ∉ REDIRECT_OPERATORS)
    (hs : parsePyInt s = none) :
    execute env ["history", s] none (some h) none fs =
      (["error", "Лимит истории должен быть числом"], fs) := by
  have hpr : parse_redirects ["history", s] = (["history", s], none, none, false) := by
    apply parse_redirects_no_ops
    intro t ht
    rcases (by simpa using ht : t = "history" ∨ t = s) with h1 | h1 <;> subst h1
    · decide
    · exact hso
  simp [execute, hpr, dispatchCommand, command_map_keys, clear_aliases, hs,
    show pyLower "history" = "history" from rfl]

/-- `history` with an argument `int(...)` accepts renders the last
`max 1 n` entries and applies no redirection. -/
theorem execute_history_numeric (env : ExecEnv) (s : String) (n : Int)
    (h : CommandHistory) (fs : FS) (hs : parsePyInt s = some n) :
    execute env ["history", s] none (some h) none fs =
      (["success", h.format (some (max 1 n).toNat)], fs) := by
  have hso : s ∉ REDIRECT_OPERATORS := parsePyInt_not_op s n hs
  have hpr : parse_redirects ["history", s] = (["history", s], none, none, false) := by
    apply parse_redirects_no_ops
    intro t ht
    rcases (by simpa using ht : t = "history" ∨ t = s) with h1 | h1 <;> subst h1
    · decide
    · exact hso
  simp [execute, hpr, dispatchCommand, command_map_keys, clear_aliases, hs,
    show pyLower "history" = "history" from rfl]

/-- The broken error check after `_parse_redirects`: a line whose resolution
fails is re-dispatched as a command named `error` whose single argument is
the error message, and when no executable named `error` is on the PATH the
final result is the unrelated not-found error. -/
theorem execute_parse_error_redispatch (env : ExecEnv) (tokens : List String)
    (dir_utility : Option (String → String)) (history : Option CommandHistory)
    (cwd : Option String) (fs : FS) (msg : String)
    (hpr : parse_redirects tokens = (["error", msg], none, none, false))
    (hne : tokens ≠ []) (hw : env.which "error" = none) :
    execute env tokens dir_utility history cwd fs =
      (["error", "Команда 'error' не найдена в системном PATH"], fs) := by
  simp [execute, hne, hpr, dispatchCommand, command_map_keys, clear_aliases,
    isBuiltinCommand, executeExternalCommand, hw,
    show pyLower "error" = "error" from rfl]
  rfl

end Command_Base

/-- C1 (counterexample): a tab is unquoted unescaped whitespace, yet the
tokenizer does not split on it — only the space character separates tokens —
so `a<TAB>b` stays one token instead of the two the claim asks for. -/
theorem tokenize_tab_not_separator :
    ShellParser.tokenize "a\tb" = ["a\tb"] ∧
      (["a\tb"] : List String) ≠ ["a", "b"] := by
  constructor <;> decide

/-- C1 (amended): the tokenizer splits on unescaped unquoted space
characters, strips quote characters while preserving quoted content, and
makes a backslash-escaped character literal: `ls -l` tokenizes to
`["ls", "-l"]`; `echo "a b"` tokenizes to `["echo", "a b"]` and dispatching
it returns a Success whose payload is `a b`; `echo a\ b` (escaped space)
tokenizes to the two tokens `echo` and `a b`. -/
theorem spec_tokenizer_examples :
    ShellParser.tokenize "ls -l" = ["ls", "-l"] ∧
    ShellParser.tokenize "echo \"a b\"" = ["echo", "a b"] ∧
    (∀ (env : ExecEnv) (fs : Command_Base.FS),
      Command_Base.execute env (ShellParser.tokenize "echo \"a b\"") none none none fs =
        (["success", "a b"], fs)) ∧
    ShellParser.tokenize "echo a\\ b" = ["echo", "a b"] := by
  refine ⟨by decide, by decide, ?_, by decide⟩
  intro env fs
  rfl

/-- C2 (code evaluated at the failing input): resolving `cat f <` does fail
with the distinct not-implemented message naming `<`, but `execute` loses
it: the error-detection check after `_parse_redirects` tests for an empty
list where the error pair has two elements, so the pair is re-dispatched as
a command named `error`, and (with no such executable on the PATH) the line
yields the unrelated not-found message instead. -/
theorem cat_input_redirect_bug :
    Command_Base.parse_redirects ["cat", "f", "<"] =
      (["error", "Перенаправление ввода '<' пока не реализовано"], none, none, false) ∧
    (Command_Base.execute trivialEnv ["cat", "f", "<"] none none none fsEmpty).1 =
      ["error", "Команда 'error' не найдена в системном PATH"] ∧
    ("Команда 'error' не найдена в системном PATH" : String) ≠
      "Перенаправление ввода '<' пока не реализовано" := by
  refine ⟨by decide, by decide, by decide⟩

/-- C3: a trailing `>`/`>>` with no following token makes resolution fail
with the requires-a-filename error; the full line `echo hi >` produces an
Error result, not an uncaught exception (with no executable named `error`
on the search path); and when a next token exists it is consumed as the
filename, recorded as the output target with the append flag set by the
operator, leaving the arguments exactly those before it. -/
theorem spec_missing_redirect_filename (ts : List String) (op f : String)
    (hop : op = ">" ∨ op = ">>") (hts : Command_Base.parse_ok_go ts = true)
    (env : ExecEnv) (fs : Command_Base.FS) (hw : env.which "error" = none) :
    Command_Base.parse_redirects (ts ++ [op]) =
      (["error", s!"Оператор '{op}' требует имя файла"], none, none, false) ∧
    (Command_Base.execute env ["echo", "hi", ">"] none none none fs).1.headD "" =
      "error" ∧
    Command_Base.parse_redirects (ts ++ [op, f]) =
      ((Command_Base.parse_redirects ts).1, some f,
        (Command_Base.parse_redirects ts).2.2.1, decide (op = ">>")) := by
  refine ⟨Command_Base.parse_redirects_trailing_op ts op hop hts, ?_,
    Command_Base.parse_redirects_filename ts op f hop hts⟩
  rw [Command_Base.execute_parse_error_redispatch env ["echo", "hi", ">"] none none
    none fs "Оператор '>' требует имя файла" (by decide) (by decide) hw]
  rfl

/-- C3 (witness): the statement instantiated at `echo hi > out.txt` and an
environment with an empty search path. -/
theorem spec_missing_redirect_filename_witness :
    Command_Base.parse_redirects ["echo", "hi", ">"] =
      (["error", "Оператор '>' требует имя файла"], none, none, false) ∧
    (Command_Base.execute trivialEnv ["echo", "hi", ">"] none none none fsEmpty).1.headD
      "" = "error" ∧
    Command_Base.parse_redirects ["echo", "hi", ">", "out.txt"] =
      (["echo", "hi"], some "out.txt", none, false) :=
  spec_missing_redirect_filename ["echo", "hi"] ">" "out.txt" (Or.inl rfl) (by decide)
    trivialEnv fsEmpty rfl

/-- C4: whatever the prior file contents, `echo hi > out.txt` succeeds with
the confirmation message substituted for the payload and leaves `out.txt`
holding exactly `hi` (no trailing newline); `echo a >> out.txt` then
`echo b >> out.txt` starting from an absent file leaves exactly `ab`, with
no separator between the appended writes. -/
theorem spec_echo_redirect_file_contents :
    (∀ (env : ExecEnv) (fs : Command_Base.FS),
      (Command_Base.execute env ["echo", "hi", ">", "out.txt"] none none none fs).1 =
        ["success", "Вывод команды 'echo' перенаправлен в out.txt"] ∧
      (Command_Base.execute env ["echo", "hi", ">", "out.txt"] none none none fs).2
        "out.txt" = some "hi") ∧
    ((Command_Base.execute trivialEnv ["echo", "b", ">>", "out.txt"] none none none
      (Command_Base.execute trivialEnv ["echo", "a", ">>", "out.txt"] none none none
        fsEmpty).2).2 "out.txt" = some "ab") := by
  refine ⟨fun env fs => ⟨rfl, rfl⟩, rfl⟩

/-- C5: when more than one output redirect appears in a line, the resolver
keeps only the last one processed by its left-to-right scan — target and
append flag both come from the last operator, nothing accumulates, and no
error is raised for the duplication. -/
theorem spec_last_output_redirect_wins (ts : List String) (op1 f1 op2 f2 : String)
    (hop1 : op1 = ">" ∨ op1 = ">>") (hop2 : op2 = ">" ∨ op2 = ">>")
    (hts : Command_Base.parse_ok_go ts = true) :
    Command_Base.parse_redirects (ts ++ [op1, f1, op2, f2]) =
      ((Command_Base.parse_redirects ts).1, some f2,
        (Command_Base.parse_redirects ts).2.2.1, decide (op2 = ">>")) :=
  Command_Base.parse_redirects_last_wins ts op1 f1 op2 f2 hop1 hop2 hts

/-- C5 (witness): `echo hi > a.txt >> b.txt` resolves to the arguments
`echo hi` with output target `b.txt` in append mode. -/
theorem spec_last_output_redirect_wins_witness :
    Command_Base.parse_redirects ["echo", "hi", ">", "a.txt", ">>", "b.txt"] =
      (["echo", "hi"], some "b.txt", none, true) :=
  spec_last_output_redirect_wins ["echo", "hi"] ">" "a.txt" ">>" "b.txt"
    (Or.inl rfl) (Or.inr rfl) (by decide)

/-- C7 (counterexample): the numeric limit `0` does not render the last
zero entries — `execute` clamps the limit with `max(1, ...)`, so after five
accumulated entries `history 0` still renders one entry, `5. e`. -/
theorem history_limit_zero_cex :
    (Command_Base.execute trivialEnv ["history", "0"] none (some historyFive) none
      fsEmpty).1 = ["success", "5. e"] ∧ ("5. e" : String) ≠ "" := by
  constructor <;> decide

/-- C7 (amended): an ASCII limit argument that `int(...)` rejects (and
that is not itself a redirect operator) yields the limit-must-be-a-number
Error — the ASCII bound is where `parsePyInt` coincides exactly with
CPython `int`, digit-group underscores included; a limit accepted as the
number `n` renders the last `max 1 n` retained entries; the rendering with
a positive limit `k` is exactly the last lines of the full numbered
rendering, so numbering continues from each entry's true position; after
five accumulated entries, limit 2 renders `4. d` and `5. e`. -/
theorem spec_history_limit_behaviour :
    (∀ (env : ExecEnv) (s : String) (h : CommandHistory) (fs : Command_Base.FS),
      isAsciiString s = true →
      s ∉ Command_Base.REDIRECT_OPERATORS → parsePyInt s = none →
      Command_Base.execute env ["history", s] none (some h) none fs =
        (["error", "Лимит истории должен быть числом"], fs)) ∧
    (∀ (env : ExecEnv) (s : String) (n : Int) (h : CommandHistory)
      (fs : Command_Base.FS), parsePyInt s = some n →
      Command_Base.execute env ["history", s] none (some h) none fs =
        (["success", h.format (some (max 1 n).toNat)], fs)) ∧
    (∀ (h : CommandHistory) (k : Nat), 1 ≤ k → h.entries ≠ [] →
      h.format (some k) =
        String.intercalate "\n" (h.lines.drop (h.entries.length - k))) ∧
    (∀ (env : ExecEnv) (fs : Command_Base.FS),
      (Command_Base.execute env ["history", "2"] none (some historyFive) none fs).1 =
        ["success", "4. d\n5. e"]) := by
  refine ⟨fun env s h fs _ hso hs =>
      Command_Base.execute_history_non_numeric env s h fs hso hs,
    fun env s n h fs hs => Command_Base.execute_history_numeric env s n h fs hs,
    fun h k hk hne => format_drop h k hk hne, fun env fs => rfl⟩

/-- C8 (counterexample): `&>` — one of the five resolver operators — is not
in the tokenizer's operator vocabulary and is not emitted as one operator
token: `x &> y` tokenizes with `&` and `>` as separate tokens. -/
theorem tokenizer_misses_amp_gt_cex :
    ("&>" : String) ∉ ShellParser.REDIRECT_OPERATORS ∧
    ShellParser.tokenize "x &> y" = ["x", "&", ">", "y"] := by
  constructor <;> decide

/-- C8 (amended): four of the five resolver operators (`>`, `>>`, `<`,
`2>`) are in the tokenizer's vocabulary and are emitted as operator tokens;
`&>` is not (it tokenizes as `&` then `>`); and any token the resolver does
not recognize — in particular the tokenizer-only operators `>&`, `<&`,
`<>`, `<<`, `>>>` — passes through resolution as an ordinary argument word
rather than triggering operator handling. -/
theorem spec_operator_vocabulary_relation :
    (∀ op ∈ ([">", ">>", "<", "2>"] : List String),
      op ∈ ShellParser.REDIRECT_OPERATORS) ∧
    ShellParser.tokenize "a > b" = ["a", ">", "b"] ∧
    ShellParser.tokenize "a >> b" = ["a", ">>", "b"] ∧
    ShellParser.tokenize "a < b" = ["a", "<", "b"] ∧
    ShellParser.tokenize "a 2> b" = ["a", "2>", "b"] ∧
    ShellParser.tokenize "a &> b" = ["a", "&", ">", "b"] ∧
    (∀ ts : List String, (∀ t ∈ ts, t ∉ Command_Base.REDIRECT_OPERATORS) →
      Command_Base.parse_redirects ts = (ts, none, none, false)) ∧
    (∀ t ∈ ([">&", "<&", "<>", "<<", ">>>"] : List String),
      t ∈ ShellParser.REDIRECT_OPERATORS ∧
      t ∉ Command_Base.REDIRECT_OPERATORS ∧
      Command_Base.parse_redirects ["x", t, "y"] = (["x", t, "y"], none, none, false)) := by
  refine ⟨by decide, by decide, by decide, by decide, by decide, by decide,
    fun ts h => Command_Base.parse_redirects_no_ops ts h, ?_⟩
  intro t ht
  rcases (by simpa using ht :
      t = ">&" ∨ t = "<&" ∨ t = "<>" ∨ t = "<<" ∨ t = ">>>") with
    h | h | h | h | h <;> subst h <;> exact ⟨by decide, by decide, by decide⟩

/-- C9: the tokenizer is total — it returns a token list for every line and
a malformed quote never raises: after an unterminated double or single
quote every following ordinary character is simply accumulated into the
final token, which is emitted at end of input, and the last accumulated
word is always emitted (`abc` tokenizes to `["abc"]`). -/
theorem spec_tokenizer_unterminated_quotes :
    (∀ l : List Char, (∀ c ∈ l, c ≠ '\\' ∧ c ≠ '"') → l ≠ [] →
      ShellParser.tokenize (String.mk ('"' :: l)) = [String.mk l]) ∧
    (∀ l : List Char, (∀ c ∈ l, c ≠ '\\' ∧ c ≠ '\'') → l ≠ [] →
      ShellParser.tokenize (String.mk ('\'' :: l)) = [String.mk l]) ∧
    ShellParser.tokenize "echo \"a b" = ["echo", "a b"] ∧
    ShellParser.tokenize "\"" = [] ∧
    ShellParser.tokenize "abc" = ["abc"] := by
  exact ⟨ShellParser.tokenize_unterminated_dquote,
    ShellParser.tokenize_unterminated_squote, by decide, by decide, by decide⟩

